import Mathlib

/-!
# Verification of the OC stock-analysis core against its specification

Shallow embedding, in Lean 4, of the core components of the
`OC_stock_analysis_trend` repository:

* `src/formulas.py` — the `FormulaEngine` scoring engine (ten financial
  tests over a fact mapping plus one historical series);
* `src/sec_api.py` — `SECClient.extract_fact` and
  `SECClient.extract_historical_facts` (the fact resolver);
* `src/database.py` / `src/finviz_db.py` — the TTL caches
  (`SECCache`, `PriceCache`, `ScreenerCache`).

Python numbers are embedded as `ℚ` (the code only adds, subtracts,
divides and compares; no float-representation effect is relevant to the
properties proved here), with an explicit `PyFloat` type recording the
`float('inf')` sentinel the code produces on some zero denominators.
Python dicts are embedded as association lists in insertion order
(Python dicts preserve insertion order); a `d.get(k)` is a lookup
returning an `Option`.  Fallible lookups therefore return `Option` and
functions are total.
-/

set_option autoImplicit false

namespace StockCore

/-! ## Python-value carriers -/

/-- A Python float as produced by the scoring engine: either a finite
rational or the `float('inf')` sentinel (`formulas.py` produces no other
non-finite value). -/
inductive PyFloat where
  | fin (q : ℚ)
  | inf
deriving DecidableEq, Repr

/-- Python `val > t` where `val` may be `float('inf')` (`inf > t` is true). -/
def PyFloat.gtQ : PyFloat → ℚ → Bool
  | .fin q, t => decide (t < q)
  | .inf, _ => true

/-- Python `val < t` where `val` may be `float('inf')` (`inf < t` is false). -/
def PyFloat.ltQ : PyFloat → ℚ → Bool
  | .fin q, t => decide (q < t)
  | .inf, _ => false

/-- Round-half-to-even on exact rationals: the semantics of Python's
builtin `round` (ignoring binary floating-point representation error,
which is irrelevant to every property proved here: no proved statement
depends on the rounded digits). -/
def roundHalfEven (q : ℚ) : ℤ :=
  let f : ℤ := ⌊q⌋
  let r : ℚ := q - f
  if r < 1/2 then f
  else if 1/2 < r then f + 1
  else if 2 ∣ f then f else f + 1

/-- Python `round(q, n)` on exact rationals. -/
def pyRound (n : ℕ) (q : ℚ) : ℚ :=
  (roundHalfEven (q * 10 ^ n) : ℚ) / 10 ^ n

/-- Python `round(val, 2)` as applied in `formulas.py`; `round(float('inf'), 2)`
is `float('inf')`. -/
def pyRound2 : PyFloat → PyFloat
  | .fin q => .fin (pyRound 2 q)
  | .inf => .inf

/-! ## Scoring engine (`src/formulas.py`, class `FormulaEngine`) -/

/-- Test verdict: the `status` field of a result dict in `formulas.py`. -/
inductive Status where
  | PASS
  | FAIL
  | NA
deriving DecidableEq, Repr

/-- The `value` field of a result dict in `formulas.py`.  It is `None` for
NA results, a rounded number (`round(val, 2)`), a percentage string
(`f"{round(val*100, 1)}%"`, embedded as the rounded rational it displays),
a count string (`f"{positives}/10"`, embedded as the count), or the literal
string `"No Interest"`. -/
inductive RValue where
  | none
  | num (x : PyFloat)
  | pct (q : ℚ)
  | cnt (k : ℕ)
  | txt (s : String)
deriving DecidableEq, Repr

/-- A result dict as built by `FormulaEngine._result`.  The `provenance`
key is omitted: every `_result` call in `formulas.py` leaves it at its
default `None`. -/
structure ScoreResult where
  name : String
  status : Status
  value : RValue
  target : String
  description : String
deriving DecidableEq, Repr

/-- The `facts` dict handed to `FormulaEngine`: a fixed set of logical
keys, each `facts.get(k)` yielding an optional numeric value. -/
structure Facts where
  cash : Option ℚ := none
  investments : Option ℚ := none
  debt : Option ℚ := none
  liabilities : Option ℚ := none
  equity : Option ℚ := none
  ocf : Option ℚ := none
  capex : Option ℚ := none
  income : Option ℚ := none
  current_assets : Option ℚ := none
  current_liabilities : Option ℚ := none
  oi : Option ℚ := none
  revenue : Option ℚ := none
  assets : Option ℚ := none
  interest : Option ℚ := none
deriving DecidableEq, Repr

namespace FormulaEngine

/-- `FormulaEngine._result` (the `provenance` argument is always left at
its default `None` in `formulas.py` and is omitted from the embedding). -/
def result (name : String) (status : Status) (value : RValue)
    (target description : String) : ScoreResult :=
  { name := name, status := status, value := value,
    target := target, description := description }

/-- `FormulaEngine.cash_test`.  `investments` is read with
`facts.get('investments') or 0`: an absent (or zero) value becomes `0`,
which on numbers coincides with `getD 0`. -/
def cash_test (facts : Facts) : ScoreResult :=
  match facts.cash, facts.debt with
  | some cash, some debt =>
    let investments := facts.investments.getD 0
    let val : PyFloat := if 0 < debt then .fin ((cash + investments) / debt) else .inf
    let status := if val.gtQ 1 then Status.PASS else Status.FAIL
    result "Cash Test" status (.num (pyRound2 val)) "> 1.0" "Cash & equivalents / Total Debt"
  | _, _ => result "Cash Test" .NA .none "> 1.0" "Cash & equivalents / Total Debt"

/-- `FormulaEngine.debt_to_equity`. -/
def debt_to_equity (facts : Facts) : ScoreResult :=
  match facts.liabilities, facts.equity with
  | some liabilities, some equity =>
    let val : PyFloat := if equity ≠ 0 then .fin (liabilities / equity) else .inf
    let status := if val.ltQ (1/2) then Status.PASS else Status.FAIL
    result "Debt-to-Equity" status (.num (pyRound2 val)) "< 0.5" "Total Liabilities / Stockholders Equity"
  | _, _ => result "Debt-to-Equity" .NA .none "< 0.5" "Total Liabilities / Stockholders Equity"

/-- `FormulaEngine.free_cash_flow`. -/
def free_cash_flow (facts : Facts) : ScoreResult :=
  match facts.ocf, facts.capex, facts.debt with
  | some ocf, some capex, some debt =>
    let fcf := ocf - |capex|
    let val : PyFloat := if 0 < debt then .fin (fcf / debt) else .inf
    let status := if val.gtQ (1/4) then Status.PASS else Status.FAIL
    result "Free Cash Flow Test" status (.num (pyRound2 val)) "> 0.25" "(OCF - CapEx) / Total Debt"
  | _, _, _ => result "Free Cash Flow Test" .NA .none "> 0.25" "(OCF - CapEx) / Total Debt"

/-- `FormulaEngine.return_on_equity`.  Note the zero-equity branch yields
the plain number `0`, not the infinite sentinel. -/
def return_on_equity (facts : Facts) : ScoreResult :=
  match facts.income, facts.equity with
  | some income, some equity =>
    let val : ℚ := if equity ≠ 0 then income / equity else 0
    let status := if 3/20 < val then Status.PASS else Status.FAIL
    result "Return on Equity" status (.pct (pyRound 1 (val * 100))) "> 15%" "Net Income / Stockholders Equity"
  | _, _ => result "Return on Equity" .NA .none "> 15%" "Net Income / Stockholders Equity"

/-- `FormulaEngine.current_ratio`. -/
def current_ratio (facts : Facts) : ScoreResult :=
  match facts.current_assets, facts.current_liabilities with
  | some assets, some liabilities =>
    let val : PyFloat := if liabilities ≠ 0 then .fin (assets / liabilities) else .inf
    let status := if val.gtQ (3/2) then Status.PASS else Status.FAIL
    result "Current Ratio" status (.num (pyRound2 val)) "> 1.5" "Current Assets / Current Liabilities"
  | _, _ => result "Current Ratio" .NA .none "> 1.5" "Current Assets / Current Liabilities"

/-- `FormulaEngine.operating_margin`.  The zero-revenue branch yields the
plain number `0`, not the infinite sentinel. -/
def operating_margin (facts : Facts) : ScoreResult :=
  match facts.oi, facts.revenue with
  | some oi, some revenue =>
    let val : ℚ := if revenue ≠ 0 then oi / revenue else 0
    let status := if 3/25 < val then Status.PASS else Status.FAIL
    result "Operating Margin" status (.pct (pyRound 1 (val * 100))) "> 12%" "Operating Income / Revenue"
  | _, _ => result "Operating Margin" .NA .none "> 12%" "Operating Income / Revenue"

/-- `FormulaEngine.asset_turnover`.  The zero-assets branch yields the
plain number `0`, not the infinite sentinel. -/
def asset_turnover (facts : Facts) : ScoreResult :=
  match facts.revenue, facts.assets with
  | some revenue, some assets =>
    let val : ℚ := if assets ≠ 0 then revenue / assets else 0
    let status := if 1/2 < val then Status.PASS else Status.FAIL
    result "Asset Turnover" status (.num (.fin (pyRound 2 val))) "> 0.5" "Revenue / Total Assets"
  | _, _ => result "Asset Turnover" .NA .none "> 0.5" "Revenue / Total Assets"

/-- `FormulaEngine.interest_coverage`.  Absent operating income is NA;
absent or zero interest is an automatic PASS with value `"No Interest"`. -/
def interest_coverage (facts : Facts) : ScoreResult :=
  match facts.oi with
  | none => result "Interest Coverage" .NA .none "> 3.0" "Operating Income / Interest Expense"
  | some oi =>
    match facts.interest with
    | none => result "Interest Coverage" .PASS (.txt "No Interest") "> 3.0" "Operating Income / Interest Expense"
    | some interest =>
      if interest = 0 then
        result "Interest Coverage" .PASS (.txt "No Interest") "> 3.0" "Operating Income / Interest Expense"
      else
        let val : ℚ := oi / |interest|
        let status := if 3 < val then Status.PASS else Status.FAIL
        result "Interest Coverage" status (.num (.fin (pyRound 2 val))) "> 3.0" "Operating Income / Interest Expense"

/-- `FormulaEngine.earnings_stability`.  `history` is
`self.historical_facts.get('NetIncomeLoss', [])`, here passed through an
association list mirroring the `historical_facts` dict; per the spec's
`HistoricalSeries` its entries are numeric. -/
def earnings_stability (historical_facts : List (String × List ℚ)) : ScoreResult :=
  let history := (historical_facts.lookup "NetIncomeLoss").getD []
  match history with
  | [] => result "Earnings Stability" .NA .none ">= 8/10" "Positive Net Income years (last 10)"
  | _ =>
    let positives := ((history.take 10).filter (fun v => 0 < v)).length
    let status := if 8 ≤ positives then Status.PASS else Status.FAIL
    result "Earnings Stability" status (.cnt positives) ">= 8/10" "Positive Net Income years (last 10)"

/-- `FormulaEngine.capital_allocation`: the ROE result relabeled. -/
def capital_allocation (facts : Facts) : ScoreResult :=
  { return_on_equity facts with name := "Capital Allocation" }

/-- `FormulaEngine.evaluate_all`: the fixed ordered battery of ten tests. -/
def evaluate_all (facts : Facts) (historical_facts : List (String × List ℚ)) :
    List ScoreResult :=
  [ cash_test facts
  , debt_to_equity facts
  , free_cash_flow facts
  , return_on_equity facts
  , current_ratio facts
  , operating_margin facts
  , asset_turnover facts
  , interest_coverage facts
  , earnings_stability historical_facts
  , capital_allocation facts ]

end FormulaEngine

/-! ## Fact resolver (`src/sec_api.py`, class `SECClient`) -/

/-- One element of a tag's unit entry list in a company-facts document:
the keys `extract_fact` / `extract_historical_facts` read, each via
`entry.get(...)` and hence optional. -/
structure Entry where
  val : Option ℚ
  end_ : Option String
  fy : Option Int
  form : Option String
deriving DecidableEq, Repr

/-- The value of one tag in a taxonomy: an optional `label` and a
`units` dict (unit name → entry list), in insertion order; a missing
`units` key (`.get('units', {})`) is the empty list. -/
structure TagData where
  label : Option String
  units : List (String × List Entry)
deriving DecidableEq, Repr

/-- A taxonomy's tag dict, in insertion order. -/
abbrev TagDict := List (String × TagData)

/-- The `'facts'` object of a company-facts document, restricted to the
two namespaces the code consults; a namespace absent from the document
is `none`. -/
structure FactsNS where
  us_gaap : Option TagDict
  dei : Option TagDict
deriving DecidableEq, Repr

/-- A company-facts document; a missing `'facts'` key is `none`.  The
document argument of `extract_fact` is `Option Doc`, `none` covering a
falsy (`not companyfacts`) argument. -/
structure Doc where
  facts : Option FactsNS
deriving DecidableEq, Repr

/-- The provenance dict returned by `extract_fact`. -/
structure Prov where
  tag : String
  label : Option String
  period_end : Option String
  fiscal_year : Option Int
  unit : String
  form : Option String
deriving DecidableEq, Repr

/-- The sort key `x.get('end', '')` used on entries. -/
def endKey (e : Entry) : String := e.end_.getD ""

/-- Stable insertion (descending by `endKey`) used to embed Python's
stable `sorted(entries, key=..., reverse=True)`: the inserted element
precedes any later element with the same key. -/
def insertByEndDesc (e : Entry) : List Entry → List Entry
  | [] => [e]
  | x :: xs => if endKey e < endKey x then x :: insertByEndDesc e xs else e :: x :: xs

/-- `sorted(entries, key=lambda x: x.get('end', ''), reverse=True)`:
stable sort, descending by period-end string. -/
def sortByEndDesc : List Entry → List Entry
  | [] => []
  | x :: xs => insertByEndDesc x (sortByEndDesc xs)

namespace SECClient

/-- The entry scan of `extract_fact` for one unit's entry list: sort by
period end descending, return the first entry whose form is `'10-K'`
(only when `period = 'annual'`; any other period matches no entry),
paired with its provenance dict. -/
def entriesSearch (period tag : String) (label : Option String)
    (unitName : String) (entries : List Entry) : Option (Option ℚ × Prov) :=
  (sortByEndDesc entries).findSome? fun e =>
    if period = "annual" then
      if e.form = some "10-K" then
        some (e.val,
          { tag := tag, label := label, period_end := e.end_, fiscal_year := e.fy,
            unit := unitName, form := e.form })
      else none
    else none

/-- The unit-key ordering of `extract_fact`: the dict's key order, with
`'USD'` moved to the front when present
(`unit_keys = ['USD'] + [k for k in unit_keys if k != 'USD']`). -/
def unitKeysOrdered (units : List (String × List Entry)) : List String :=
  let ks := units.map Prod.fst
  if "USD" ∈ ks then "USD" :: ks.filter (fun k => k ≠ "USD") else ks

/-- The unit scan of `extract_fact` for one tag: try the ordered unit
keys, first unit whose entries yield a result wins. -/
def tagSearch (period tag : String) (td : TagData) : Option (Option ℚ × Prov) :=
  (unitKeysOrdered td.units).findSome? fun u =>
    match td.units.lookup u with
    | some entries => entriesSearch period tag td.label u entries
    | none => none

/-- The tag scan of `extract_fact` over one namespace: candidate tags in
caller-supplied order; a tag that is absent, or present but yielding no
matching entry, falls through to the next tag. -/
def taxoSearch (period : String) (tags : List String) (dict : TagDict) :
    Option (Option ℚ × Prov) :=
  tags.findSome? fun tag =>
    match dict.lookup tag with
    | some td => tagSearch period tag td
    | none => none

/-- `SECClient.extract_fact`: scan `'us-gaap'` then `'dei'`, skipping an
absent namespace and falling through from a namespace whose candidate
tags yield nothing; a successful scan returns `(entry.get('val'),
provenance)`, exhaustion returns `(none, none)`. -/
def extract_fact (companyfacts : Option Doc) (tags : List String)
    (period : String := "annual") : Option ℚ × Option Prov :=
  match companyfacts with
  | none => (none, none)
  | some doc =>
    match doc.facts with
    | none => (none, none)
    | some fs =>
      match [fs.us_gaap, fs.dei].findSome? (fun od => od.bind (taxoSearch period tags)) with
      | some (v, p) => (v, some p)
      | none => (none, none)

/-- The per-unit de-duplication loop of `extract_historical_facts`:
walk the (sorted) 10-K entries; an entry whose `fy` was already seen is
skipped, otherwise its `val` is appended and, immediately after
appending, the loop breaks once `limit` total results are collected. -/
def dedupByFy (limit : ℕ) (seen : List (Option Int)) (acc : List (Option ℚ)) :
    List Entry → List (Option ℚ)
  | [] => acc
  | e :: es =>
    if e.fy ∈ seen then dedupByFy limit seen acc es
    else
      let acc' := acc ++ [e.val]
      if limit ≤ acc'.length then acc' else dedupByFy limit (e.fy :: seen) acc' es

/-- The unit loop of `extract_historical_facts`: for each unit in dict
order, filter its entries to form `'10-K'`, sort by period end
descending, run the de-duplication loop (with a fresh `seen` set per
unit), and stop at the first unit after which `results` is nonempty. -/
def histUnits (limit : ℕ) (results : List (Option ℚ)) :
    List (String × List Entry) → List (Option ℚ)
  | [] => results
  | (_, entries) :: rest =>
    let tenKs := sortByEndDesc (entries.filter (fun e => e.form = some "10-K"))
    let results' := dedupByFy limit [] results tenKs
    if results' = [] then histUnits limit results' rest else results'

/-- The namespace loop of `extract_historical_facts`: for `'us-gaap'`
then `'dei'`, if the namespace is present and contains the tag, scan its
units; stop at the first namespace after which `results` is nonempty. -/
def histTaxos (tag : String) (limit : ℕ) (results : List (Option ℚ)) :
    List (Option TagDict) → List (Option ℚ)
  | [] => results
  | od :: rest =>
    let results' :=
      match od with
      | none => results
      | some dict =>
        match dict.lookup tag with
        | some td => histUnits limit results td.units
        | none => results
    if results' = [] then histTaxos tag limit results' rest else results'

/-- `SECClient.extract_historical_facts`. -/
def extract_historical_facts (companyfacts : Option Doc) (tag : String)
    (limit : ℕ := 10) : List (Option ℚ) :=
  match companyfacts with
  | none => []
  | some doc =>
    match doc.facts with
    | none => []
    | some fs => histTaxos tag limit [] [fs.us_gaap, fs.dei]

end SECClient

/-! ## TTL caches (`src/database.py`, `src/finviz_db.py`)

Two complementary embeddings are used.

*State level* (claims about stored values): each cache table is a list of
rows keyed by its primary key; `INSERT OR REPLACE` is an upsert; time is
a rational timestamp measured in days, so SQLite's `cached_at >
now - timedelta(days=days)` comparison is `now - days < cached_at`.

*Control level* (claims about retry under contention): each
`sqlite3.connect` attempt is abstracted as an outcome (success, the
transient `OperationalError("unable to open database file")`, or any
other `OperationalError`), and the `for _ in range(3)` /
`time.sleep(0.5)` loops are embedded as functions of the attempt-outcome
sequence, returning what surfaces to the caller together with the number
of 0.5-second sleeps performed. -/

/-- `INSERT OR REPLACE` keyed by a string primary key: any existing row
with the key is replaced. -/
def upsert {α : Type} (st : List (String × α)) (k : String) (v : α) :
    List (String × α) :=
  (k, v) :: st.filter (fun p => p.1 ≠ k)

/-- A row of the `sec_cache` table: the stored payload (the embedding
treats `json.dumps`/`json.loads` as the identity round-trip it is on the
documents stored) and `cached_at`. -/
structure SecRow (α : Type) where
  payload : α
  cached_at : ℚ
deriving DecidableEq

namespace SECCache

/-- `SECCache.store`: a falsy payload (`if not data: return`) is a
no-op; otherwise insert-or-replace the row for `cik` at time `now`.
`falsy` embeds Python truthiness on the payload type. -/
def store {α : Type} (falsy : α → Bool) (st : List (String × SecRow α))
    (cik : String) (data : α) (now : ℚ) : List (String × SecRow α) :=
  if falsy data then st else upsert st cik ⟨data, now⟩

/-- `SECCache.get`: return the stored payload only when the row exists
and `cached_at > now - days`; otherwise a miss.  The state is read, not
returned: the function modifies nothing. -/
def get {α : Type} (st : List (String × SecRow α)) (cik : String)
    (now : ℚ) (days : ℚ := 7) : Option α :=
  match st.lookup cik with
  | some row => if now - days < row.cached_at then some row.payload else none
  | none => none

end SECCache

/-- The optional metadata dict of `PriceCache.store`. -/
structure PriceMeta where
  pe_ratio : Option ℚ := none
  sector : Option String := none
  industry : Option String := none
deriving DecidableEq

/-- A row of the `price_cache` table; the price DataFrame is embedded as
its list of rows (abstract row type). -/
structure PriceRow (ρ : Type) where
  data : List ρ
  cached_at : ℚ
  pe_ratio : Option ℚ
  sector : Option String
  industry : Option String
deriving DecidableEq

namespace PriceCache

/-- `PriceCache.store` at state level: `df is None or df.empty` is a
no-op; otherwise insert-or-replace the row for `ticker` at time `now`
with the metadata fields (each `None` when `metadata` is absent). -/
def store {ρ : Type} (st : List (String × PriceRow ρ)) (ticker : String)
    (df : Option (List ρ)) (metadata : Option PriceMeta) (now : ℚ) :
    List (String × PriceRow ρ) :=
  match df with
  | none => st
  | some [] => st
  | some rows =>
    let m := metadata.getD {}
    upsert st ticker ⟨rows, now, m.pe_ratio, m.sector, m.industry⟩

end PriceCache

/-- An input row handed to `ScreenerCache.store`: a dict read with
`r.get(...)`. -/
structure ScreenerInRow where
  ticker : Option String := none
  tickerUC : Option String := none
  company : Option String := none
  sector : Option String := none
  industry : Option String := none
  country : Option String := none
  pe : Option String := none
  marketCap : Option String := none
deriving DecidableEq

/-- A row of the `screener_stocks` table (primary key
`(screener_name, ticker)`). -/
structure ScreenerRow where
  screener_name : String
  ticker : String
  updated_at : ℚ
  company : Option String
  sector : Option String
  industry : Option String
  country : Option String
  pe : Option String
  marketCap : Option String
deriving DecidableEq

namespace ScreenerCache

/-- `r.get("ticker") or r.get("Ticker")` followed by the
`if not ticker: continue` guard and `str(ticker).strip()`: the row's
effective ticker, `none` when the row is skipped (Python truthiness on
strings: `None` and `""` are falsy). -/
def rowTicker (r : ScreenerInRow) : Option String :=
  let t : Option String :=
    match r.ticker with
    | some s => if s = "" then r.tickerUC else some s
    | none => r.tickerUC
  match t with
  | some s => if s = "" then none else some s.trim
  | none => none

/-- The inserted row for one input row, `none` when the input row has no
usable ticker. -/
def mkRow (name : String) (now : ℚ) (r : ScreenerInRow) : Option ScreenerRow :=
  (rowTicker r).map fun t =>
    ⟨name, t, now, r.company, r.sector, r.industry, r.country, r.pe, r.marketCap⟩

/-- `ScreenerCache.store` at state level: an empty `rows` list
(`if not rows: return`) is a no-op; otherwise delete every existing row
of this screener, then insert one row per input row that has a usable
ticker, all stamped with the same `updated_at`. -/
def store (st : List ScreenerRow) (name : String) (rows : List ScreenerInRow)
    (now : ℚ) : List ScreenerRow :=
  match rows with
  | [] => st
  | _ :: _ =>
    st.filter (fun r => r.screener_name ≠ name) ++ rows.filterMap (mkRow name now)

end ScreenerCache

/-! ### Retry control level -/

/-- Outcome of one `sqlite3.connect`-and-execute attempt. -/
inductive SqlOutcome where
  | ok
  | lockErr
  | otherErr
deriving DecidableEq, Repr

/-- What a store call surfaces to its caller. -/
inductive StoreOutcome where
  | stored
  | gaveUp
  | raised
deriving DecidableEq, Repr

/-- The `for _ in range(n)` retry loop shared by `PriceCache.store`,
`PriceCache.get` and `ScreenerCache.store`, applied to the sequence of
attempt outcomes: success breaks the loop; the transient
`"unable to open database file"` error sleeps 0.5 s and retries; any
other `OperationalError` is re-raised; loop exhaustion falls out of the
loop silently.  Returns the surfaced outcome and the number of 0.5-second
sleeps performed. -/
def retryLoop : List SqlOutcome → StoreOutcome × ℕ
  | [] => (.gaveUp, 0)
  | o :: rest =>
    match o with
    | .ok => (.stored, 0)
    | .otherErr => (.raised, 0)
    | .lockErr =>
      let r := retryLoop rest
      (r.1, r.2 + 1)

/-- `PriceCache.store` control flow (`for _ in range(3)` around the
write). -/
def priceStoreControl (attempt : ℕ → SqlOutcome) : StoreOutcome × ℕ :=
  retryLoop [attempt 0, attempt 1, attempt 2]

/-- `ScreenerCache.store` control flow (`for _ in range(3)` around the
delete-and-insert). -/
def screenerStoreControl (attempt : ℕ → SqlOutcome) : StoreOutcome × ℕ :=
  retryLoop [attempt 0, attempt 1, attempt 2]

/-- `SECCache.store` control flow: a single attempt, no `try` at all —
every `OperationalError`, the transient lock error included, propagates
to the caller. -/
def secStoreControl (o : SqlOutcome) : StoreOutcome × ℕ :=
  match o with
  | .ok => (.stored, 0)
  | .lockErr => (.raised, 0)
  | .otherErr => (.raised, 0)

/-- What a read call surfaces to its caller: a value (possibly a miss)
or a propagated exception. -/
inductive GetSurface (α : Type) where
  | value (a : Option α)
  | raised
deriving DecidableEq

/-- Outcome of one read attempt's body: the produced value on success,
or the kind of `OperationalError`. -/
inductive ReadOutcome (α : Type) where
  | ok (a : Option α)
  | lockErr
  | otherErr
deriving DecidableEq

/-- `PriceCache.get` control flow: `for _ in range(3)`; success breaks
with the body's value, the transient lock error sleeps 0.5 s and
retries, any other `OperationalError` is re-raised, exhaustion falls
through to `return None`. -/
def priceGetControl {α : Type} : List (ReadOutcome α) → GetSurface α × ℕ
  | [] => (.value none, 0)
  | o :: rest =>
    match o with
    | .ok a => (.value a, 0)
    | .otherErr => (.raised, 0)
    | .lockErr =>
      let r := priceGetControl (α := α) rest
      (r.1, r.2 + 1)

/-- `SECCache.get` control flow: a single attempt; every
`OperationalError` (transient or not) is caught, logged and treated as a
miss — no retry, no sleep, nothing raised. -/
def secGetControl {α : Type} (o : ReadOutcome α) : GetSurface α × ℕ :=
  match o with
  | .ok a => (.value a, 0)
  | .lockErr => (.value none, 0)
  | .otherErr => (.value none, 0)

/-! ## Concrete inputs used in counterexamples and witnesses -/

/-- A fact mapping with every logical key present. -/
def allFacts (c inv d li eqy ocf cx inc ca cl oi rev ast itr : ℚ) : Facts :=
  { cash := some c, investments := some inv, debt := some d, liabilities := some li,
    equity := some eqy, ocf := some ocf, capex := some cx, income := some inc,
    current_assets := some ca, current_liabilities := some cl, oi := some oi,
    revenue := some rev, assets := some ast, interest := some itr }

/-- Return on Equity inputs both present, with zero equity. -/
def roeZeroEquityFacts : Facts :=
  { income := some 1, equity := some 0 }

/-- An entry of filing form `10-Q` only (never matched by the annual
scan). -/
def entry10Q : Entry :=
  { val := some 3, end_ := some "2023-12-31", fy := some 2023, form := some "10-Q" }

/-- An entry of filing form `10-K` with value 5. -/
def entry10K : Entry :=
  { val := some 5, end_ := some "2023-12-31", fy := some 2023, form := some "10-K" }

/-- A `us-gaap` namespace that *contains* the candidate tag `Revenues`,
but whose only entry is a `10-Q` — the tag yields nothing for the annual
scan. -/
def usGaapRevenuesQOnly : TagDict :=
  [("Revenues", { label := none, units := [("USD", [entry10Q])] })]

/-- A `dei` namespace whose `Revenues` tag has a `10-K` entry. -/
def deiRevenuesK : TagDict :=
  [("Revenues", { label := some "Revenues", units := [("USD", [entry10K])] })]

/-- The two namespaces of `doc4`. -/
def doc4fs : FactsNS :=
  { us_gaap := some usGaapRevenuesQOnly, dei := some deiRevenuesK }

/-- Document for the C4 counterexample: the earlier namespace contains
the candidate tag, the later one holds the only annual entry. -/
def doc4 : Doc :=
  { facts := some doc4fs }

/-- A `NetIncomeLoss` tag with a single `10-K` entry. -/
def tagDict5 : TagDict :=
  [("NetIncomeLoss", { label := none, units := [("USD", [entry10K])] })]

/-- Document for the C5 counterexample (`limit = 0`). -/
def doc5 : Doc :=
  { facts := some { us_gaap := some tagDict5, dei := none } }

/-! # Theorems -/

/-! ## Shared helper lemmas -/

theorem ite_status_ne_na (c : Prop) [Decidable c] :
    (if c then Status.PASS else Status.FAIL) ≠ Status.NA := by
  split <;> simp

theorem ite_status_pf (c : Prop) [Decidable c] :
    (if c then Status.PASS else Status.FAIL) = Status.PASS ∨
      (if c then Status.PASS else Status.FAIL) = Status.FAIL := by
  split <;> simp

theorem cash_test_status (f : Facts) :
    ((FormulaEngine.cash_test f).status = .NA ↔ f.cash = none ∨ f.debt = none) ∧
    (((FormulaEngine.cash_test f).status = .PASS ∨ (FormulaEngine.cash_test f).status = .FAIL)
      ↔ ¬ (f.cash = none ∨ f.debt = none)) := by
  rcases hc : f.cash with _ | c <;> rcases hd : f.debt with _ | d <;>
    simp [FormulaEngine.cash_test, FormulaEngine.result, hc, hd,
      ite_status_ne_na, ite_status_pf]

theorem debt_to_equity_status (f : Facts) :
    ((FormulaEngine.debt_to_equity f).status = .NA ↔ f.liabilities = none ∨ f.equity = none) ∧
    (((FormulaEngine.debt_to_equity f).status = .PASS ∨
        (FormulaEngine.debt_to_equity f).status = .FAIL)
      ↔ ¬ (f.liabilities = none ∨ f.equity = none)) := by
  rcases hl : f.liabilities with _ | li <;> rcases he : f.equity with _ | e <;>
    simp [FormulaEngine.debt_to_equity, FormulaEngine.result, hl, he,
      ite_status_ne_na, ite_status_pf]

theorem free_cash_flow_status (f : Facts) :
    ((FormulaEngine.free_cash_flow f).status = .NA ↔
        f.ocf = none ∨ f.capex = none ∨ f.debt = none) ∧
    (((FormulaEngine.free_cash_flow f).status = .PASS ∨
        (FormulaEngine.free_cash_flow f).status = .FAIL)
      ↔ ¬ (f.ocf = none ∨ f.capex = none ∨ f.debt = none)) := by
  rcases ho : f.ocf with _ | o <;> rcases hx : f.capex with _ | x <;>
      rcases hd : f.debt with _ | d <;>
    simp [FormulaEngine.free_cash_flow, FormulaEngine.result, ho, hx, hd,
      ite_status_ne_na, ite_status_pf]

theorem return_on_equity_status (f : Facts) :
    ((FormulaEngine.return_on_equity f).status = .NA ↔ f.income = none ∨ f.equity = none) ∧
    (((FormulaEngine.return_on_equity f).status = .PASS ∨
        (FormulaEngine.return_on_equity f).status = .FAIL)
      ↔ ¬ (f.income = none ∨ f.equity = none)) := by
  rcases hi : f.income with _ | i <;> rcases he : f.equity with _ | e <;>
    simp [FormulaEngine.return_on_equity, FormulaEngine.result, hi, he,
      ite_status_ne_na, ite_status_pf] <;>
    (try exact lt_or_le _ _)

theorem current_ratio_status (f : Facts) :
    ((FormulaEngine.current_ratio f).status = .NA ↔
        f.current_assets = none ∨ f.current_liabilities = none) ∧
    (((FormulaEngine.current_ratio f).status = .PASS ∨
        (FormulaEngine.current_ratio f).status = .FAIL)
      ↔ ¬ (f.current_assets = none ∨ f.current_liabilities = none)) := by
  rcases ha : f.current_assets with _ | a <;> rcases hl : f.current_liabilities with _ | l <;>
    simp [FormulaEngine.current_ratio, FormulaEngine.result, ha, hl,
      ite_status_ne_na, ite_status_pf]

theorem operating_margin_status (f : Facts) :
    ((FormulaEngine.operating_margin f).status = .NA ↔ f.oi = none ∨ f.revenue = none) ∧
    (((FormulaEngine.operating_margin f).status = .PASS ∨
        (FormulaEngine.operating_margin f).status = .FAIL)
      ↔ ¬ (f.oi = none ∨ f.revenue = none)) := by
  rcases ho : f.oi with _ | o <;> rcases hr : f.revenue with _ | r <;>
    simp [FormulaEngine.operating_margin, FormulaEngine.result, ho, hr,
      ite_status_ne_na, ite_status_pf] <;>
    (try exact lt_or_le _ _)

theorem asset_turnover_status (f : Facts) :
    ((FormulaEngine.asset_turnover f).status = .NA ↔ f.revenue = none ∨ f.assets = none) ∧
    (((FormulaEngine.asset_turnover f).status = .PASS ∨
        (FormulaEngine.asset_turnover f).status = .FAIL)
      ↔ ¬ (f.revenue = none ∨ f.assets = none)) := by
  rcases hr : f.revenue with _ | r <;> rcases ha : f.assets with _ | a <;>
    simp [FormulaEngine.asset_turnover, FormulaEngine.result, hr, ha,
      ite_status_ne_na, ite_status_pf] <;>
    (try exact lt_or_le _ _)

theorem interest_coverage_status (f : Facts) :
    ((FormulaEngine.interest_coverage f).status = .NA ↔ f.oi = none) ∧
    (((FormulaEngine.interest_coverage f).status = .PASS ∨
        (FormulaEngine.interest_coverage f).status = .FAIL) ↔ ¬ f.oi = none) := by
  rcases ho : f.oi with _ | oi <;> rcases hi : f.interest with _ | i <;>
    simp [FormulaEngine.interest_coverage, FormulaEngine.result, ho, hi,
      ite_status_ne_na, ite_status_pf] <;>
    (try (split <;> simp [ite_status_ne_na, ite_status_pf])) <;>
    (try exact lt_or_le _ _)

theorem earnings_stability_status (hf : List (String × List ℚ)) :
    ((FormulaEngine.earnings_stability hf).status = .NA ↔
        (hf.lookup "NetIncomeLoss").getD [] = []) ∧
    (((FormulaEngine.earnings_stability hf).status = .PASS ∨
        (FormulaEngine.earnings_stability hf).status = .FAIL) ↔
      ¬ (hf.lookup "NetIncomeLoss").getD [] = []) := by
  rcases hh : (hf.lookup "NetIncomeLoss").getD [] with _ | ⟨v, vs⟩ <;>
    simp [FormulaEngine.earnings_stability, FormulaEngine.result, hh,
      ite_status_ne_na, ite_status_pf] <;>
    (try exact le_or_lt _ _)

theorem capital_allocation_eq_roe (f : Facts) :
    (FormulaEngine.capital_allocation f).status = (FormulaEngine.return_on_equity f).status ∧
    (FormulaEngine.capital_allocation f).value = (FormulaEngine.return_on_equity f).value := by
  exact ⟨rfl, rfl⟩

/-! ## C1 -/

/-- C1: for every test in the fixed battery of ten (and the historical
series for Earnings Stability), the `ScoreResult` status is `NA` exactly
when one of that test's required input facts is absent (required inputs
per the spec's table: `investments` is optional for Cash Test, absent or
zero `interest` is the automatic-PASS branch of Interest Coverage, the
historical series is the input of Earnings Stability), and `PASS`/`FAIL`
is assigned exactly when all required inputs are present and numeric. -/
theorem c1_na_iff_missing_input (facts : Facts) (hf : List (String × List ℚ)) :
    FormulaEngine.evaluate_all facts hf =
      [ FormulaEngine.cash_test facts, FormulaEngine.debt_to_equity facts,
        FormulaEngine.free_cash_flow facts, FormulaEngine.return_on_equity facts,
        FormulaEngine.current_ratio facts, FormulaEngine.operating_margin facts,
        FormulaEngine.asset_turnover facts, FormulaEngine.interest_coverage facts,
        FormulaEngine.earnings_stability hf, FormulaEngine.capital_allocation facts ] ∧
    (((FormulaEngine.cash_test facts).status = .NA ↔
        facts.cash = none ∨ facts.debt = none) ∧
      (((FormulaEngine.cash_test facts).status = .PASS ∨
          (FormulaEngine.cash_test facts).status = .FAIL)
        ↔ ¬ (facts.cash = none ∨ facts.debt = none))) ∧
    (((FormulaEngine.debt_to_equity facts).status = .NA ↔
        facts.liabilities = none ∨ facts.equity = none) ∧
      (((FormulaEngine.debt_to_equity facts).status = .PASS ∨
          (FormulaEngine.debt_to_equity facts).status = .FAIL)
        ↔ ¬ (facts.liabilities = none ∨ facts.equity = none))) ∧
    (((FormulaEngine.free_cash_flow facts).status = .NA ↔
        facts.ocf = none ∨ facts.capex = none ∨ facts.debt = none) ∧
      (((FormulaEngine.free_cash_flow facts).status = .PASS ∨
          (FormulaEngine.free_cash_flow facts).status = .FAIL)
        ↔ ¬ (facts.ocf = none ∨ facts.capex = none ∨ facts.debt = none))) ∧
    (((FormulaEngine.return_on_equity facts).status = .NA ↔
        facts.income = none ∨ facts.equity = none) ∧
      (((FormulaEngine.return_on_equity facts).status = .PASS ∨
          (FormulaEngine.return_on_equity facts).status = .FAIL)
        ↔ ¬ (facts.income = none ∨ facts.equity = none))) ∧
    (((FormulaEngine.current_ratio facts).status = .NA ↔
        facts.current_assets = none ∨ facts.current_liabilities = none) ∧
      (((FormulaEngine.current_ratio facts).status = .PASS ∨
          (FormulaEngine.current_ratio facts).status = .FAIL)
        ↔ ¬ (facts.current_assets = none ∨ facts.current_liabilities = none))) ∧
    (((FormulaEngine.operating_margin facts).status = .NA ↔
        facts.oi = none ∨ facts.revenue = none) ∧
      (((FormulaEngine.operating_margin facts).status = .PASS ∨
          (FormulaEngine.operating_margin facts).status = .FAIL)
        ↔ ¬ (facts.oi = none ∨ facts.revenue = none))) ∧
    (((FormulaEngine.asset_turnover facts).status = .NA ↔
        facts.revenue = none ∨ facts.assets = none) ∧
      (((FormulaEngine.asset_turnover facts).status = .PASS ∨
          (FormulaEngine.asset_turnover facts).status = .FAIL)
        ↔ ¬ (facts.revenue = none ∨ facts.assets = none))) ∧
    (((FormulaEngine.interest_coverage facts).status = .NA ↔ facts.oi = none) ∧
      (((FormulaEngine.interest_coverage facts).status = .PASS ∨
          (FormulaEngine.interest_coverage facts).status = .FAIL)
        ↔ ¬ facts.oi = none)) ∧
    (((FormulaEngine.earnings_stability hf).status = .NA ↔
        (hf.lookup "NetIncomeLoss").getD [] = []) ∧
      (((FormulaEngine.earnings_stability hf).status = .PASS ∨
          (FormulaEngine.earnings_stability hf).status = .FAIL)
        ↔ ¬ (hf.lookup "NetIncomeLoss").getD [] = [])) ∧
    (((FormulaEngine.capital_allocation facts).status = .NA ↔
        facts.income = none ∨ facts.equity = none) ∧
      (((FormulaEngine.capital_allocation facts).status = .PASS ∨
          (FormulaEngine.capital_allocation facts).status = .FAIL)
        ↔ ¬ (facts.income = none ∨ facts.equity = none))) := by
  refine ⟨rfl, cash_test_status facts, debt_to_equity_status facts,
    free_cash_flow_status facts, return_on_equity_status facts,
    current_ratio_status facts, operating_margin_status facts,
    asset_turnover_status facts, interest_coverage_status facts,
    earnings_stability_status hf, ?_⟩
  have h := return_on_equity_status facts
  have hc := capital_allocation_eq_roe facts
  rw [hc.1]
  exact h

/-! ## C2 -/

theorem ite_status_eq_pass (c : Prop) [Decidable c] :
    ((if c then Status.PASS else Status.FAIL) = Status.PASS) ↔ c := by
  split <;> simp [*]

/-- C2: on a fact mapping with every input present and numeric (divisor
facts nonzero, so the finite-ratio branch of each test applies, and a
nonzero interest so the ratio branch of Interest Coverage applies), each
test's status is `PASS` exactly when its documented inequality holds on
the unrounded computed value, while the `value` field — and only the
`value` field — carries the two-decimal (one-decimal for percentage
tests) rounding. -/
theorem c2_pass_iff_unrounded
    (c inv d li eqy ocf cx inc ca cl oi rev ast itr : ℚ) (hist : List ℚ)
    (f : Facts) (hf : f = allFacts c inv d li eqy ocf cx inc ca cl oi rev ast itr)
    (hd : 0 < d) (heq : eqy ≠ 0) (hcl : cl ≠ 0) (hrev : rev ≠ 0) (hast : ast ≠ 0)
    (hitr : itr ≠ 0) (hh : hist ≠ []) :
    ((FormulaEngine.cash_test f).status = .PASS ↔ 1 < (c + inv) / d) ∧
    (FormulaEngine.cash_test f).value = .num (.fin (pyRound 2 ((c + inv) / d))) ∧
    ((FormulaEngine.debt_to_equity f).status = .PASS ↔ li / eqy < 1/2) ∧
    (FormulaEngine.debt_to_equity f).value = .num (.fin (pyRound 2 (li / eqy))) ∧
    ((FormulaEngine.free_cash_flow f).status = .PASS ↔ 1/4 < (ocf - |cx|) / d) ∧
    (FormulaEngine.free_cash_flow f).value = .num (.fin (pyRound 2 ((ocf - |cx|) / d))) ∧
    ((FormulaEngine.return_on_equity f).status = .PASS ↔ 3/20 < inc / eqy) ∧
    (FormulaEngine.return_on_equity f).value = .pct (pyRound 1 (inc / eqy * 100)) ∧
    ((FormulaEngine.current_ratio f).status = .PASS ↔ 3/2 < ca / cl) ∧
    (FormulaEngine.current_ratio f).value = .num (.fin (pyRound 2 (ca / cl))) ∧
    ((FormulaEngine.operating_margin f).status = .PASS ↔ 3/25 < oi / rev) ∧
    (FormulaEngine.operating_margin f).value = .pct (pyRound 1 (oi / rev * 100)) ∧
    ((FormulaEngine.asset_turnover f).status = .PASS ↔ 1/2 < rev / ast) ∧
    (FormulaEngine.asset_turnover f).value = .num (.fin (pyRound 2 (rev / ast))) ∧
    ((FormulaEngine.interest_coverage f).status = .PASS ↔ 3 < oi / |itr|) ∧
    (FormulaEngine.interest_coverage f).value = .num (.fin (pyRound 2 (oi / |itr|))) ∧
    ((FormulaEngine.earnings_stability [("NetIncomeLoss", hist)]).status = .PASS ↔
      8 ≤ ((hist.take 10).filter (fun v => 0 < v)).length) ∧
    (FormulaEngine.earnings_stability [("NetIncomeLoss", hist)]).value =
      .cnt ((hist.take 10).filter (fun v => 0 < v)).length := by
  subst hf
  rcases hist with _ | ⟨v, vs⟩
  · exact absurd rfl hh
  · refine ⟨?_, ?_, ?_, ?_, ?_, ?_, ?_, ?_, ?_, ?_, ?_, ?_, ?_, ?_, ?_, ?_, ?_, ?_⟩ <;>
      simp [allFacts, FormulaEngine.cash_test, FormulaEngine.debt_to_equity,
        FormulaEngine.free_cash_flow, FormulaEngine.return_on_equity,
        FormulaEngine.current_ratio, FormulaEngine.operating_margin,
        FormulaEngine.asset_turnover, FormulaEngine.interest_coverage,
        FormulaEngine.earnings_stability, FormulaEngine.result,
        hd, heq, hcl, hrev, hast, hitr,
        ite_status_eq_pass, PyFloat.gtQ, PyFloat.ltQ, pyRound2]

/-- Witness for C2 at the all-ones fact mapping. -/
theorem c2_pass_iff_unrounded_witness :
    (FormulaEngine.cash_test (allFacts 1 1 1 1 1 1 1 1 1 1 1 1 1 1)).status = .PASS ↔
      1 < ((1 : ℚ) + 1) / 1 :=
  (c2_pass_iff_unrounded 1 1 1 1 1 1 1 1 1 1 1 1 1 1 [1] _ rfl
    one_pos one_ne_zero one_ne_zero one_ne_zero one_ne_zero one_ne_zero
    (List.cons_ne_nil 1 [])).1

/-! ## C3 -/

/-- C3 counterexample: Return on Equity is a strict-lower-bound test
(`> 15%`), its required inputs `income = 1` and `equity = 0` are
present, and its denominator (`equity`) is zero — yet the code computes
the plain value `0` (displayed `0.0%`), not the infinite sentinel, and
the status is `FAIL`, not `PASS`.  This refutes the claim that every
strict-lower-bound test maps a zero denominator to the infinite sentinel
and `PASS`. -/
theorem c3_zero_denominator_counterexample :
    roeZeroEquityFacts.income = some 1 ∧ roeZeroEquityFacts.equity = some 0 ∧
    (FormulaEngine.return_on_equity roeZeroEquityFacts).status = Status.FAIL ∧
    (FormulaEngine.return_on_equity roeZeroEquityFacts).status ≠ Status.PASS ∧
    (FormulaEngine.return_on_equity roeZeroEquityFacts).value = RValue.pct 0 := by
  refine ⟨rfl, rfl, ?_, ?_, ?_⟩ <;>
    norm_num [roeZeroEquityFacts, FormulaEngine.return_on_equity, FormulaEngine.result,
      pyRound, roundHalfEven] <;> decide

/-- C3 as amended: for every fact mapping in which a test's required
inputs are present and its denominator fact is zero (the other inputs
arbitrary), the division-guarded tests `Cash Test`, `Free Cash Flow` and
`Current Ratio` yield the infinite sentinel and `PASS` (and the
upper-bound test `Debt-to-Equity` yields the sentinel and `FAIL`), while
`Return on Equity`, `Operating Margin` and `Asset Turnover` instead
yield the plain value `0` and `FAIL`. -/
theorem c3_zero_denominator_amended (f : Facts) :
    (f.cash ≠ none → f.debt = some 0 →
      (FormulaEngine.cash_test f).status = .PASS ∧
      (FormulaEngine.cash_test f).value = .num .inf) ∧
    (f.ocf ≠ none → f.capex ≠ none → f.debt = some 0 →
      (FormulaEngine.free_cash_flow f).status = .PASS ∧
      (FormulaEngine.free_cash_flow f).value = .num .inf) ∧
    (f.current_assets ≠ none → f.current_liabilities = some 0 →
      (FormulaEngine.current_ratio f).status = .PASS ∧
      (FormulaEngine.current_ratio f).value = .num .inf) ∧
    (f.liabilities ≠ none → f.equity = some 0 →
      (FormulaEngine.debt_to_equity f).status = .FAIL ∧
      (FormulaEngine.debt_to_equity f).value = .num .inf) ∧
    (f.income ≠ none → f.equity = some 0 →
      (FormulaEngine.return_on_equity f).status = .FAIL ∧
      (FormulaEngine.return_on_equity f).value = .pct 0) ∧
    (f.oi ≠ none → f.revenue = some 0 →
      (FormulaEngine.operating_margin f).status = .FAIL ∧
      (FormulaEngine.operating_margin f).value = .pct 0) ∧
    (f.revenue ≠ none → f.assets = some 0 →
      (FormulaEngine.asset_turnover f).status = .FAIL ∧
      (FormulaEngine.asset_turnover f).value = .num (.fin 0)) := by
  refine ⟨?_, ?_, ?_, ?_, ?_, ?_, ?_⟩
  · intro h1 h2
    rcases hc : f.cash with _ | c
    · exact absurd hc h1
    · constructor <;>
        simp [FormulaEngine.cash_test, FormulaEngine.result, hc, h2,
          PyFloat.gtQ, pyRound2]
  · intro h1 h2 h3
    rcases ho : f.ocf with _ | o
    · exact absurd ho h1
    · rcases hx : f.capex with _ | x
      · exact absurd hx h2
      · constructor <;>
          simp [FormulaEngine.free_cash_flow, FormulaEngine.result, ho, hx, h3,
            PyFloat.gtQ, pyRound2]
  · intro h1 h2
    rcases ha : f.current_assets with _ | a
    · exact absurd ha h1
    · constructor <;>
        simp [FormulaEngine.current_ratio, FormulaEngine.result, ha, h2,
          PyFloat.gtQ, pyRound2]
  · intro h1 h2
    rcases hl : f.liabilities with _ | l
    · exact absurd hl h1
    · constructor <;>
        simp [FormulaEngine.debt_to_equity, FormulaEngine.result, hl, h2,
          PyFloat.ltQ, pyRound2]
  · intro h1 h2
    rcases hi : f.income with _ | i
    · exact absurd hi h1
    · constructor <;>
        norm_num [FormulaEngine.return_on_equity, FormulaEngine.result, hi, h2,
          pyRound, roundHalfEven]
  · intro h1 h2
    rcases ho : f.oi with _ | o
    · exact absurd ho h1
    · constructor <;>
        norm_num [FormulaEngine.operating_margin, FormulaEngine.result, ho, h2,
          pyRound, roundHalfEven]
  · intro h1 h2
    rcases hr : f.revenue with _ | r
    · exact absurd hr h1
    · constructor <;>
        norm_num [FormulaEngine.asset_turnover, FormulaEngine.result, hr, h2,
          pyRound, roundHalfEven]

/-- Witness for the amended C3: Asset Turnover at a *nonzero* revenue
(7) over zero assets is FAIL with value 0. -/
theorem c3_zero_denominator_amended_witness :
    (FormulaEngine.asset_turnover { revenue := some 7, assets := some 0 }).status = .FAIL ∧
    (FormulaEngine.asset_turnover { revenue := some 7, assets := some 0 }).value =
      .num (.fin 0) :=
  (c3_zero_denominator_amended { revenue := some 7, assets := some 0 }).2.2.2.2.2.2
    (by simp) rfl

/-! ## C4 -/

/-- C4 counterexample: in `doc4` the first namespace (`us-gaap`)
contains the candidate tag `Revenues`, yet `extract_fact` returns the
`dei` namespace's value `5` with `dei` provenance — because the
`us-gaap` tag's only entry is a `10-Q` and yields nothing, the loop
falls through to the next namespace instead of stopping.  This refutes
"once an earlier namespace contains a candidate tag, no later namespace
is consulted". -/
theorem c4_namespace_fallthrough_counterexample :
    (usGaapRevenuesQOnly.lookup "Revenues").isSome = true ∧
    SECClient.taxoSearch "annual" ["Revenues"] usGaapRevenuesQOnly = none ∧
    SECClient.extract_fact (some doc4) ["Revenues"] "annual" =
      (some 5, some { tag := "Revenues", label := some "Revenues",
                      period_end := some "2023-12-31", fiscal_year := some 2023,
                      unit := "USD", form := some "10-K" }) :=
  ⟨rfl, rfl, rfl⟩

/-- C4 as amended: the namespace scan stops at the first namespace whose
candidate tags *yield an annual entry* (not merely the first namespace
containing a candidate tag), never merging namespaces; within a
namespace, the first candidate tag in caller-supplied order that yields
an annual entry wins, and a tag that is absent — or present but yielding
nothing — is skipped in favour of the next candidate. -/
theorem c4_first_yielding_wins (fs : FactsNS) (tags : List String) (p : String) :
    (∀ r : Option ℚ × Prov, fs.us_gaap.bind (SECClient.taxoSearch p tags) = some r →
      SECClient.extract_fact (some ⟨some fs⟩) tags p = (r.1, some r.2)) ∧
    (fs.us_gaap.bind (SECClient.taxoSearch p tags) = none →
      ∀ r : Option ℚ × Prov, fs.dei.bind (SECClient.taxoSearch p tags) = some r →
        SECClient.extract_fact (some ⟨some fs⟩) tags p = (r.1, some r.2)) ∧
    (fs.us_gaap.bind (SECClient.taxoSearch p tags) = none →
      fs.dei.bind (SECClient.taxoSearch p tags) = none →
        SECClient.extract_fact (some ⟨some fs⟩) tags p = (none, none)) ∧
    (∀ (dict : TagDict) (t : String) (ts : List String),
      ((dict.lookup t).isNone ∨ ∃ td, dict.lookup t = some td ∧
          SECClient.tagSearch p t td = none) →
        SECClient.taxoSearch p (t :: ts) dict = SECClient.taxoSearch p ts dict) ∧
    (∀ (dict : TagDict) (t : String) (ts : List String) (td : TagData)
        (r : Option ℚ × Prov),
      dict.lookup t = some td → SECClient.tagSearch p t td = some r →
        SECClient.taxoSearch p (t :: ts) dict = some r) := by
  refine ⟨?_, ?_, ?_, ?_, ?_⟩
  · rintro ⟨v, pr⟩ h
    simp [SECClient.extract_fact, List.findSome?_cons, h]
  · rintro h ⟨v, pr⟩ h2
    simp [SECClient.extract_fact, List.findSome?_cons, h, h2]
  · intro h h2
    simp [SECClient.extract_fact, List.findSome?_cons, h, h2]
  · rintro dict t ts (h | ⟨td, h, h2⟩)
    · cases hl : dict.lookup t
      · simp [SECClient.taxoSearch, List.findSome?_cons, hl]
      · simp [hl] at h
    · simp [SECClient.taxoSearch, List.findSome?_cons, h, h2]
  · intro dict t ts td r h h2
    simp [SECClient.taxoSearch, List.findSome?_cons, h, h2]

/-- Witness for the amended C4: in `doc4` the `us-gaap` scan yields
nothing and the result is the `dei` scan's. -/
theorem c4_first_yielding_wins_witness :
    SECClient.extract_fact (some doc4) ["Revenues"] "annual" =
      ((some 5 : Option ℚ),
        some { tag := "Revenues", label := some "Revenues",
               period_end := some "2023-12-31", fiscal_year := some 2023,
               unit := "USD", form := some "10-K" }) :=
  (c4_first_yielding_wins doc4fs ["Revenues"] "annual").2.1 rfl
    (some 5, { tag := "Revenues", label := some "Revenues",
               period_end := some "2023-12-31", fiscal_year := some 2023,
               unit := "USD", form := some "10-K" }) rfl

/-! ## C5 -/

theorem insertByEndDesc_perm (e : Entry) (l : List Entry) :
    List.Perm (insertByEndDesc e l) (e :: l) := by
  induction l with
  | nil => simp [insertByEndDesc]
  | cons x xs ih =>
    simp only [insertByEndDesc]
    split
    · exact ((ih.cons x).trans (List.Perm.swap e x xs))
    · exact List.Perm.refl _

theorem sortByEndDesc_perm (l : List Entry) : List.Perm (sortByEndDesc l) l := by
  induction l with
  | nil => simp [sortByEndDesc]
  | cons x xs ih =>
    exact (insertByEndDesc_perm x (sortByEndDesc xs)).trans (ih.cons x)

theorem insertByEndDesc_pairwise (e : Entry) (l : List Entry)
    (h : l.Pairwise (fun a b => endKey b ≤ endKey a)) :
    (insertByEndDesc e l).Pairwise (fun a b => endKey b ≤ endKey a) := by
  induction l with
  | nil => simp [insertByEndDesc]
  | cons x xs ih =>
    simp only [insertByEndDesc]
    rcases h with _ | ⟨hx, hxs⟩
    split
    · refine List.Pairwise.cons ?_ (ih hxs)
      intro y hy
      rcases List.mem_cons.mp ((insertByEndDesc_perm e xs).mem_iff.mp hy) with hy' | hy'
      · subst hy'
        exact le_of_lt (by assumption)
      · exact hx y hy'
    · refine List.Pairwise.cons ?_ (List.Pairwise.cons hx hxs)
      intro y hy
      rcases List.mem_cons.mp hy with hy' | hy'
      · subst hy'
        exact le_of_not_lt (by assumption)
      · exact le_trans (hx y hy') (le_of_not_lt (by assumption))

theorem sortByEndDesc_pairwise (l : List Entry) :
    (sortByEndDesc l).Pairwise (fun a b => endKey b ≤ endKey a) := by
  induction l with
  | nil => simp [sortByEndDesc]
  | cons x xs ih => exact insertByEndDesc_pairwise x (sortByEndDesc xs) ih

theorem dedupByFy_spec (limit : ℕ) (es : List Entry) (seen : List (Option Int))
    (acc : List (Option ℚ)) :
    ∃ picked : List Entry,
      SECClient.dedupByFy limit seen acc es = acc ++ picked.map Entry.val ∧
      picked.Sublist es ∧
      (picked.map Entry.fy).Nodup ∧
      ∀ e ∈ picked, e.fy ∉ seen := by
  induction es generalizing seen acc with
  | nil => exact ⟨[], by simp [SECClient.dedupByFy], List.Sublist.refl _, by simp, by simp⟩
  | cons e es ih =>
    by_cases hseen : e.fy ∈ seen
    · obtain ⟨p, h1, h2, h3, h4⟩ := ih seen acc
      refine ⟨p, ?_, h2.cons _, h3, h4⟩
      simp only [SECClient.dedupByFy]
      rw [if_pos hseen, h1]
    · by_cases hlim : limit ≤ (acc ++ [e.val]).length
      · refine ⟨[e], ?_, ?_, by simp, by simpa using hseen⟩
        · simp only [SECClient.dedupByFy]
          rw [if_neg hseen, if_pos hlim]
          simp
        · simpa using List.Sublist.cons₂ e (List.nil_sublist es)
      · obtain ⟨p, h1, h2, h3, h4⟩ := ih (e.fy :: seen) (acc ++ [e.val])
        refine ⟨e :: p, ?_, List.Sublist.cons₂ e h2, ?_, ?_⟩
        · simp only [SECClient.dedupByFy]
          rw [if_neg hseen, if_neg hlim, h1]
          simp
        · refine List.Nodup.cons ?_ h3
          simp only [List.mem_map]
          rintro ⟨x, hx, hfy⟩
          exact h4 x hx (by simp [hfy])
        · intro x hx
          rcases List.mem_cons.mp hx with rfl | hx'
          · exact hseen
          · intro hs
            exact h4 x hx' (by simp [hs])

theorem dedupByFy_length (limit : ℕ) (es : List Entry) (seen : List (Option Int))
    (acc : List (Option ℚ)) (h : acc.length < limit) :
    (SECClient.dedupByFy limit seen acc es).length ≤ limit := by
  induction es generalizing seen acc with
  | nil => simpa [SECClient.dedupByFy] using le_of_lt h
  | cons e es ih =>
    by_cases hseen : e.fy ∈ seen
    · have := ih seen acc h
      simp only [SECClient.dedupByFy]
      rw [if_pos hseen]
      exact this
    · by_cases hlim : limit ≤ (acc ++ [e.val]).length
      · simp only [SECClient.dedupByFy]
        rw [if_neg hseen, if_pos hlim]
        simp only [List.length_append, List.length_cons, List.length_nil]
        omega
      · simp only [SECClient.dedupByFy]
        rw [if_neg hseen, if_neg hlim]
        refine ih _ _ ?_
        simp only [List.length_append, List.length_cons, List.length_nil] at hlim ⊢
        omega

theorem histUnits_spec (limit : ℕ) (hlim : 1 ≤ limit) (us : List (String × List Entry)) :
    (SECClient.histUnits limit [] us).length ≤ limit ∧
    (SECClient.histUnits limit [] us = [] ∨
      ∃ (picked : List Entry) (un : String) (entries : List Entry),
        (un, entries) ∈ us ∧
        SECClient.histUnits limit [] us = picked.map Entry.val ∧
        picked.Sublist (sortByEndDesc (entries.filter (fun e => e.form = some "10-K"))) ∧
        (picked.map Entry.fy).Nodup ∧
        (∀ e ∈ picked, e.form = some "10-K") ∧
        picked.Pairwise (fun a b => endKey b ≤ endKey a)) := by
  induction us with
  | nil => exact ⟨by simp [SECClient.histUnits], Or.inl rfl⟩
  | cons u rest ih =>
    obtain ⟨un, entries⟩ := u
    by_cases hr : SECClient.dedupByFy limit [] []
        (sortByEndDesc (entries.filter (fun e => e.form = some "10-K"))) = []
    · have hstep : SECClient.histUnits limit [] ((un, entries) :: rest) =
          SECClient.histUnits limit [] rest := by
        simp only [SECClient.histUnits]
        rw [if_pos hr, hr]
      rw [hstep]
      refine ⟨ih.1, ?_⟩
      rcases ih.2 with h | ⟨p, un', entries', hmem, h1, h2, h3, h4, h5⟩
      · exact Or.inl h
      · exact Or.inr ⟨p, un', entries', List.mem_cons_of_mem _ hmem, h1, h2, h3, h4, h5⟩
    · have hstep : SECClient.histUnits limit [] ((un, entries) :: rest) =
          SECClient.dedupByFy limit [] []
            (sortByEndDesc (entries.filter (fun e => e.form = some "10-K"))) := by
        simp only [SECClient.histUnits]
        rw [if_neg hr]
      obtain ⟨p, h1, h2, h3, h4⟩ := dedupByFy_spec limit
        (sortByEndDesc (entries.filter (fun e => e.form = some "10-K"))) [] []
      have hres : SECClient.histUnits limit [] ((un, entries) :: rest) =
          p.map Entry.val := by
        rw [hstep, h1]; simp
      have hmemp : ∀ e ∈ p, e ∈ entries.filter (fun e => e.form = some "10-K") := by
        intro e he
        exact (sortByEndDesc_perm _).mem_iff.mp (h2.subset he)
      refine ⟨?_, Or.inr ⟨p, un, entries, List.mem_cons_self _ _, hres, h2, h3, ?_, ?_⟩⟩
      · rw [hstep]
        exact dedupByFy_length limit _ [] [] (by simpa using hlim)
      · intro e he
        have := List.mem_filter.mp (hmemp e he)
        simpa using this.2
      · exact List.Pairwise.sublist h2 (sortByEndDesc_pairwise _)

theorem histTaxos_spec (limit : ℕ) (hlim : 1 ≤ limit) (tag : String)
    (l : List (Option TagDict)) :
    (SECClient.histTaxos tag limit [] l).length ≤ limit ∧
    (SECClient.histTaxos tag limit [] l = [] ∨
      ∃ (picked : List Entry) (dict : TagDict) (td : TagData)
        (un : String) (entries : List Entry),
        some dict ∈ l ∧
        dict.lookup tag = some td ∧
        (un, entries) ∈ td.units ∧
        SECClient.histTaxos tag limit [] l = picked.map Entry.val ∧
        picked.Sublist (sortByEndDesc (entries.filter (fun e => e.form = some "10-K"))) ∧
        (picked.map Entry.fy).Nodup ∧
        (∀ e ∈ picked, e.form = some "10-K") ∧
        picked.Pairwise (fun a b => endKey b ≤ endKey a)) := by
  induction l with
  | nil => exact ⟨by simp [SECClient.histTaxos], Or.inl rfl⟩
  | cons od rest ih =>
    have liftIH : (SECClient.histTaxos tag limit [] rest).length ≤ limit ∧
        (SECClient.histTaxos tag limit [] rest = [] ∨
          ∃ (picked : List Entry) (dict : TagDict) (td : TagData)
            (un : String) (entries : List Entry),
            some dict ∈ od :: rest ∧
            dict.lookup tag = some td ∧
            (un, entries) ∈ td.units ∧
            SECClient.histTaxos tag limit [] rest = picked.map Entry.val ∧
            picked.Sublist (sortByEndDesc (entries.filter (fun e => e.form = some "10-K"))) ∧
            (picked.map Entry.fy).Nodup ∧
            (∀ e ∈ picked, e.form = some "10-K") ∧
            picked.Pairwise (fun a b => endKey b ≤ endKey a)) := by
      refine ⟨ih.1, ?_⟩
      rcases ih.2 with h | ⟨p, dict, td, un, entries, hmem, h1, h2, h3, h4, h5, h6, h7⟩
      · exact Or.inl h
      · exact Or.inr ⟨p, dict, td, un, entries, List.mem_cons_of_mem _ hmem,
          h1, h2, h3, h4, h5, h6, h7⟩
    rcases od with _ | dict
    · have hstep : SECClient.histTaxos tag limit [] (none :: rest) =
          SECClient.histTaxos tag limit [] rest := by
        simp [SECClient.histTaxos]
      rw [hstep]; exact liftIH
    · rcases hlk : dict.lookup tag with _ | td
      · have hstep : SECClient.histTaxos tag limit [] (some dict :: rest) =
            SECClient.histTaxos tag limit [] rest := by
          simp [SECClient.histTaxos, hlk]
        rw [hstep]; exact liftIH
      · by_cases hu : SECClient.histUnits limit [] td.units = []
        · have hstep : SECClient.histTaxos tag limit [] (some dict :: rest) =
              SECClient.histTaxos tag limit [] rest := by
            simp [SECClient.histTaxos, hlk, hu]
          rw [hstep]; exact liftIH
        · have hstep : SECClient.histTaxos tag limit [] (some dict :: rest) =
              SECClient.histUnits limit [] td.units := by
            simp [SECClient.histTaxos, hlk, hu]
          rw [hstep]
          obtain ⟨hlen, hcase⟩ := histUnits_spec limit hlim td.units
          rcases hcase with h | ⟨p, un, entries, hmem, h1, h2, h3, h4, h5⟩
          · exact absurd h hu
          · exact ⟨hlen, Or.inr ⟨p, dict, td, un, entries,
              List.mem_cons_self _ _, hlk, hmem, h1, h2, h3, h4, h5⟩⟩

/-- C5 counterexample: with `limit = 0` and a document holding one
`10-K` entry, `extract_historical_facts` returns one value — the
limit check runs only *after* an append, so the result exceeds the limit
of `0`.  This refutes "at most `limit` values" for every limit. -/
theorem c5_limit_zero_counterexample :
    SECClient.extract_historical_facts (some doc5) "NetIncomeLoss" 0 = [some 5] ∧
    ¬ (SECClient.extract_historical_facts (some doc5) "NetIncomeLoss" 0).length ≤ 0 := by
  have h : SECClient.extract_historical_facts (some doc5) "NetIncomeLoss" 0 = [some 5] := rfl
  exact ⟨h, by rw [h]; simp⟩

/-- C5 as amended: for every positive `limit`, the returned list has at
most `limit` values, and — unless empty — it is the value image of a
list `picked` of entries drawn from the document itself: `picked` is a
sublist of the period-end-descending sort of the `10-K`-filtered entry
list of one unit of the tag in one of the document's two namespaces,
with pairwise-distinct fiscal years, all of filing form `10-K`, in
period-end-descending order; and the scan stops at the first namespace
that yields at least one result (shown for `us-gaap`). -/
theorem c5_historical_facts_amended (cf : Option Doc) (tag : String) (limit : ℕ)
    (hlim : 1 ≤ limit) :
    (SECClient.extract_historical_facts cf tag limit).length ≤ limit ∧
    (SECClient.extract_historical_facts cf tag limit = [] ∨
      ∃ (picked : List Entry) (fs : FactsNS) (dict : TagDict) (td : TagData)
        (un : String) (entries : List Entry),
        cf = some { facts := some fs } ∧
        (fs.us_gaap = some dict ∨ fs.dei = some dict) ∧
        dict.lookup tag = some td ∧
        (un, entries) ∈ td.units ∧
        SECClient.extract_historical_facts cf tag limit = picked.map Entry.val ∧
        picked.Sublist (sortByEndDesc (entries.filter (fun e => e.form = some "10-K"))) ∧
        (picked.map Entry.fy).Nodup ∧
        (∀ e ∈ picked, e.form = some "10-K") ∧
        picked.Pairwise (fun a b => endKey b ≤ endKey a)) ∧
    (∀ (fs : FactsNS) (dict : TagDict) (td : TagData),
      cf = some { facts := some fs } → fs.us_gaap = some dict →
      dict.lookup tag = some td → SECClient.histUnits limit [] td.units ≠ [] →
      SECClient.extract_historical_facts cf tag limit =
        SECClient.histUnits limit [] td.units) := by
  rcases cf with _ | doc
  · refine ⟨by simp [SECClient.extract_historical_facts], Or.inl rfl, ?_⟩
    intro fs dict td h
    exact absurd h (by simp)
  · rcases hdf : doc.facts with _ | fs
    · refine ⟨?_, Or.inl ?_, ?_⟩
      · simp [SECClient.extract_historical_facts, hdf]
      · simp [SECClient.extract_historical_facts, hdf]
      · intro fs dict td h
        obtain rfl : doc = { facts := some fs } := by injection h
        simp at hdf
    · have hdoc : doc = { facts := some fs } := by
        cases doc
        simp only at hdf
        rw [hdf]
      subst hdoc
      have hmain : SECClient.extract_historical_facts (some { facts := some fs }) tag limit =
          SECClient.histTaxos tag limit [] [fs.us_gaap, fs.dei] := by
        simp [SECClient.extract_historical_facts]
      obtain ⟨ha, hb⟩ := histTaxos_spec limit hlim tag [fs.us_gaap, fs.dei]
      refine ⟨by rw [hmain]; exact ha, ?_, ?_⟩
      · rcases hb with h | ⟨p, dict, td, un, entries, hmem, h1, h2, h3, h4, h5, h6, h7⟩
        · exact Or.inl (by rw [hmain]; exact h)
        · have hdict : fs.us_gaap = some dict ∨ fs.dei = some dict := by
            rcases List.mem_cons.mp hmem with h' | h'
            · exact Or.inl h'.symm
            · rcases List.mem_cons.mp h' with h'' | h''
              · exact Or.inr h''.symm
              · simp at h''
          exact Or.inr ⟨p, fs, dict, td, un, entries, rfl, hdict, h1, h2,
            by rw [hmain]; exact h3, h4, h5, h6, h7⟩
      · intro fs' dict td heq hus hlk hne
        have h5 : fs = fs' := Option.some.inj (congrArg Doc.facts (Option.some.inj heq))
        subst h5
        rw [hmain]
        simp [SECClient.histTaxos, hus, hlk, hne]

/-- Witness for the amended C5 at `doc5` and the default limit 10. -/
theorem c5_historical_facts_amended_witness :
    (SECClient.extract_historical_facts (some doc5) "NetIncomeLoss" 10).length ≤ 10 :=
  (c5_historical_facts_amended (some doc5) "NetIncomeLoss" 10 (by decide)).1

/-! ## C6 -/

/-- C6: for a payload the store actually writes (non-falsy — the falsy
case is the no-op of C10), a `get` while `now - stored_at < days` (the
freshness window, strict) returns the exact stored payload; once the
window has elapsed, `get` returns `none` while the stored row is still
present under the key.  `get` is a pure read of the state in this
embedding (it returns no state), mirroring the `SELECT`-only body of
`SECCache.get`: it deletes and modifies nothing. -/
theorem c6_cache_roundtrip_expiry {α : Type} (falsy : α → Bool)
    (st : List (String × SecRow α)) (cik : String) (data : α) (now t days : ℚ)
    (hdata : falsy data = false) :
    (t - days < now →
      SECCache.get (SECCache.store falsy st cik data now) cik t days = some data) ∧
    (now ≤ t - days →
      SECCache.get (SECCache.store falsy st cik data now) cik t days = none ∧
      (SECCache.store falsy st cik data now).lookup cik =
        some { payload := data, cached_at := now }) := by
  have hs : SECCache.store falsy st cik data now =
      (cik, ({ payload := data, cached_at := now } : SecRow α)) ::
        st.filter (fun p => p.1 ≠ cik) := by
    simp [SECCache.store, hdata, upsert]
  constructor
  · intro hfresh
    rw [hs]
    simp [SECCache.get, List.lookup, hfresh]
  · intro hstale
    rw [hs]
    refine ⟨?_, ?_⟩
    · simp [SECCache.get, List.lookup, not_lt.mpr hstale]
    · simp [List.lookup]

/-- Witness for C6: store at time 7, read at time 7 with a 7-day window. -/
theorem c6_cache_roundtrip_expiry_witness :
    SECCache.get (SECCache.store (fun _ => false) [] "0000320193" (5 : ℚ) 7)
      "0000320193" 7 7 = some 5 :=
  (c6_cache_roundtrip_expiry (fun _ => false) [] "0000320193" 5 7 7 7 rfl).1
    (by norm_num)

/-! ## C7 -/

/-- C7 counterexample: a transiently rejected write on the SEC filings
cache (`SECCache.store`) surfaces the failure immediately, with zero
retries and zero 0.5-second sleeps — there is no retry loop in
`SECCache.store` at all — while the price and screener stores retry
the same outcome three times.  This refutes "every backing store
retries up to 3 times with a fixed 0.5-second backoff". -/
theorem c7_sec_store_no_retry_counterexample :
    secStoreControl .lockErr = (.raised, 0) ∧
    priceStoreControl (fun _ => .lockErr) = (.gaveUp, 3) ∧
    screenerStoreControl (fun _ => .lockErr) = (.gaveUp, 3) :=
  ⟨rfl, rfl, rfl⟩

/-- C7 as amended: only `PriceCache.store`, `PriceCache.get` and
`ScreenerCache.store` retry the transient lock rejection, making at most
3 attempts with one 0.5-second sleep after each transient failure, and
after 3 transient failures give up silently (nothing stored and no
failure surfaced; reads fall through to a miss); a non-transient
`OperationalError` is raised at once without retry.  The SEC filings
cache performs a single attempt: its store surfaces every error
immediately (zero retries, zero backoff) and its read treats every error
as a miss. -/
theorem c7_retry_policy_amended {α : Type} (attempt : ℕ → SqlOutcome) :
    (attempt 0 = .ok → priceStoreControl attempt = (.stored, 0)) ∧
    (attempt 0 = .lockErr → attempt 1 = .ok → priceStoreControl attempt = (.stored, 1)) ∧
    (attempt 0 = .lockErr → attempt 1 = .lockErr → attempt 2 = .ok →
      priceStoreControl attempt = (.stored, 2)) ∧
    (attempt 0 = .lockErr → attempt 1 = .lockErr → attempt 2 = .lockErr →
      priceStoreControl attempt = (.gaveUp, 3)) ∧
    (attempt 0 = .otherErr → priceStoreControl attempt = (.raised, 0)) ∧
    screenerStoreControl attempt = priceStoreControl attempt ∧
    (∀ o : SqlOutcome, secStoreControl o =
      if o = .ok then (.stored, 0) else (.raised, 0)) ∧
    (∀ o : ReadOutcome α, (secGetControl o).1 ≠ .raised ∧ (secGetControl o).2 = 0) ∧
    (∀ a : Option α, ∀ rest, priceGetControl (.ok a :: rest) = (.value a, 0)) ∧
    (∀ rest : List (ReadOutcome α), priceGetControl (.lockErr :: rest) =
      ((priceGetControl rest).1, (priceGetControl rest).2 + 1)) ∧
    (∀ rest : List (ReadOutcome α), priceGetControl (.otherErr :: rest) = (.raised, 0)) ∧
    priceGetControl (α := α) [.lockErr, .lockErr, .lockErr] = (.value none, 3) := by
  refine ⟨?_, ?_, ?_, ?_, ?_, rfl, ?_, ?_, fun a rest => rfl, fun rest => rfl,
    fun rest => rfl, rfl⟩
  · intro h0
    simp [priceStoreControl, retryLoop, h0]
  · intro h0 h1
    simp [priceStoreControl, retryLoop, h0, h1]
  · intro h0 h1 h2
    simp [priceStoreControl, retryLoop, h0, h1, h2]
  · intro h0 h1 h2
    simp [priceStoreControl, retryLoop, h0, h1, h2]
  · intro h0
    simp [priceStoreControl, retryLoop, h0]
  · rintro (_ | _ | _) <;> rfl
  · rintro (_ | _ | _) <;> exact ⟨by simp [secGetControl], rfl⟩

/-- Witness for the amended C7: an immediately successful write stores
with no sleeps. -/
theorem c7_retry_policy_amended_witness :
    priceStoreControl (fun _ => .ok) = (.stored, 0) :=
  (c7_retry_policy_amended (α := ℚ) (fun _ => .ok)).1 rfl

/-! ## C8 -/

theorem findSome?_none_of_all_none {α β : Type} (l : List α) (f : α → Option β)
    (h : ∀ a ∈ l, f a = none) : l.findSome? f = none := by
  induction l with
  | nil => rfl
  | cons a as ih =>
    rw [List.findSome?_cons]
    rw [h a (List.mem_cons_self a as)]
    exact ih (fun x hx => h x (List.mem_cons_of_mem a hx))

/-- C8: `extract_fact` is a total function of its (optional) document —
"never raises" is witnessed by the embedding itself, in which every
`dict.get`-style access is an `Option`-valued lookup whose `none` case
falls through.  An absent document or one without a `facts` mapping
yields `(none, none)`; every call either yields `(none, none)` or a
value with provenance; empty unit or entry collections yield nothing
for their candidate; and complete exhaustion (no namespace's candidate
tags yield anything) gives `(none, none)`. -/
theorem c8_extract_fact_never_raises (cf : Option Doc) (tags : List String) (p : String) :
    (SECClient.extract_fact none tags p = (none, none)) ∧
    (SECClient.extract_fact (some { facts := none }) tags p = (none, none)) ∧
    (SECClient.extract_fact cf tags p = (none, none) ∨
      ∃ v pr, SECClient.extract_fact cf tags p = (v, some pr)) ∧
    (∀ (t : String) (lb : Option String) (u : String),
      SECClient.entriesSearch p t lb u [] = none) ∧
    (∀ (t : String) (lb : Option String),
      SECClient.tagSearch p t { label := lb, units := [] } = none) ∧
    (∀ (doc : Doc) (fs : FactsNS), cf = some doc → doc.facts = some fs →
      fs.us_gaap.bind (SECClient.taxoSearch p tags) = none →
      fs.dei.bind (SECClient.taxoSearch p tags) = none →
      SECClient.extract_fact cf tags p = (none, none)) := by
  refine ⟨rfl, rfl, ?_, fun t lb u => rfl, fun t lb => rfl, ?_⟩
  · rcases cf with _ | doc
    · exact Or.inl rfl
    · rcases hdf : doc.facts with _ | fs
      · exact Or.inl (by simp [SECClient.extract_fact, hdf])
      · rcases hfind : [fs.us_gaap, fs.dei].findSome?
            (fun od => od.bind (SECClient.taxoSearch p tags)) with _ | ⟨v, pr⟩
        · exact Or.inl (by simp [SECClient.extract_fact, hdf, hfind])
        · exact Or.inr ⟨v, pr, by simp [SECClient.extract_fact, hdf, hfind]⟩
  · intro doc fs heq hdf h1 h2
    subst heq
    simp [SECClient.extract_fact, hdf, List.findSome?_cons, h1, h2]

/-- Witness for C8: exhaustion on a document whose two namespaces are
both absent. -/
theorem c8_extract_fact_never_raises_witness :
    SECClient.extract_fact
      (some { facts := some { us_gaap := none, dei := none } })
      ["Revenues"] "annual" = (none, none) :=
  (c8_extract_fact_never_raises
      (some { facts := some { us_gaap := none, dei := none } })
      ["Revenues"] "annual").2.2.2.2.2
    { facts := some { us_gaap := none, dei := none } }
    { us_gaap := none, dei := none } rfl rfl rfl rfl

/-! ## C9 -/

/-- C9: for any period granularity other than `"annual"`, `extract_fact`
returns `(none, none)` — the entry scan matches no entry whatever the
document contains, as only the annual/10-K granularity is implemented. -/
theorem c9_non_annual_period (cf : Option Doc) (tags : List String) (p : String)
    (hp : p ≠ "annual") :
    SECClient.extract_fact cf tags p = (none, none) := by
  have hent : ∀ (t : String) (lb : Option String) (u : String) (es : List Entry),
      SECClient.entriesSearch p t lb u es = none := by
    intro t lb u es
    refine findSome?_none_of_all_none _ _ ?_
    intro e he
    simp [hp]
  have htag : ∀ (t : String) (td : TagData), SECClient.tagSearch p t td = none := by
    intro t td
    refine findSome?_none_of_all_none _ _ ?_
    intro u hu
    cases td.units.lookup u <;> simp [hent]
  have htaxo : ∀ (dict : TagDict), SECClient.taxoSearch p tags dict = none := by
    intro dict
    refine findSome?_none_of_all_none _ _ ?_
    intro t ht
    cases dict.lookup t <;> simp [htag]
  rcases cf with _ | doc
  · rfl
  · rcases hdf : doc.facts with _ | fs
    · simp [SECClient.extract_fact, hdf]
    · simp [SECClient.extract_fact, hdf]
      rw [findSome?_none_of_all_none _ _ ?_]
      rintro od hod
      rcases od with _ | dict
      · rfl
      · simp [htaxo]

/-- Witness for C9: a quarterly request on a document that does contain
a `10-K` entry for the candidate tag. -/
theorem c9_non_annual_period_witness :
    SECClient.extract_fact (some doc4) ["Revenues"] "quarterly" = (none, none) :=
  c9_non_annual_period (some doc4) ["Revenues"] "quarterly" (by decide)

/-! ## C10 -/

/-- C10: an empty-payload `put` is a no-op on every cache: a falsy SEC
filings payload, an absent or empty price DataFrame, and an empty
screener row list each return without writing, leaving the entire
backing store — any previously stored record for the key included —
unchanged. -/
theorem c10_empty_put_noop {α ρ : Type} (falsy : α → Bool) (stS : List (String × SecRow α))
    (stP : List (String × PriceRow ρ)) (stScr : List ScreenerRow)
    (cik ticker name : String) (data : α) (metadata : Option PriceMeta) (now : ℚ)
    (hdata : falsy data = true) :
    SECCache.store falsy stS cik data now = stS ∧
    PriceCache.store stP ticker none metadata now = stP ∧
    PriceCache.store stP ticker (some []) metadata now = stP ∧
    ScreenerCache.store stScr name [] now = stScr := by
  refine ⟨?_, rfl, rfl, rfl⟩
  simp [SECCache.store, hdata]

/-- Witness for C10 with an empty-list payload on a store holding a
previous record. -/
theorem c10_empty_put_noop_witness :
    SECCache.store (fun l => l.isEmpty)
      [("0000320193", { payload := [(5 : ℚ)], cached_at := 0 })]
      "0000320193" ([] : List ℚ) 7 =
      [("0000320193", { payload := [(5 : ℚ)], cached_at := 0 })] :=
  (c10_empty_put_noop (fun l => l.isEmpty)
    [("0000320193", { payload := [(5 : ℚ)], cached_at := 0 })]
    ([] : List (String × PriceRow ℚ)) [] "0000320193" "AAPL" "dividend"
    ([] : List ℚ) none 7 rfl).1

end StockCore
